import Mathlib

/-!
Verification of the Product catalog REST service.

The request handlers are embedded from `src/service/routes.py`.  The Product
entity and its query layer (`service/models.py`) are not present in the
source tree — only their tests, factories and callers are — so those
definitions are modelled from the specification (each such definition's doc
comment starts with `Modelled from the spec:`).
-/

namespace ProductService

/-- Modelled from the spec: the closed enumeration of product categories
(§3 of the specification lists UNKNOWN, CLOTHS, FOOD, HOUSEWARES,
AUTOMOTIVE, TOOLS). -/
inductive Category where
  | UNKNOWN
  | CLOTHS
  | FOOD
  | HOUSEWARES
  | AUTOMOTIVE
  | TOOLS
deriving DecidableEq, Repr

/-- The string name of a category member, as used on the wire. -/
def Category.name : Category → String
  | .UNKNOWN => "UNKNOWN"
  | .CLOTHS => "CLOTHS"
  | .FOOD => "FOOD"
  | .HOUSEWARES => "HOUSEWARES"
  | .AUTOMOTIVE => "AUTOMOTIVE"
  | .TOOLS => "TOOLS"

/-- Modelled from the spec: category lookup by enumeration member name;
an unrecognized string yields `none`. -/
def Category.fromName : String → Option Category
  | "UNKNOWN" => some .UNKNOWN
  | "CLOTHS" => some .CLOTHS
  | "FOOD" => some .FOOD
  | "HOUSEWARES" => some .HOUSEWARES
  | "AUTOMOTIVE" => some .AUTOMOTIVE
  | "TOOLS" => some .TOOLS
  | _ => none

/-- JSON values as used on the wire: objects are association lists. -/
inductive Json where
  | obj (fields : List (String × Json))
  | str (s : String)
  | num (q : Rat)
  | jbool (b : Bool)
  | null
  | arr (elems : List Json)

/-- Python truthiness of a JSON value (`if not data` in the handlers):
empty containers, empty strings, zero, false and null are falsy. -/
def Json.truthy : Json → Bool
  | .obj fields => !fields.isEmpty
  | .arr elems => !elems.isEmpty
  | .str s => !s.isEmpty
  | .num q => decide (q ≠ 0)
  | .jbool b => b
  | .null => false

/-- Best-effort string view of a JSON value, used when a text field of the
entity is assigned from an arbitrary JSON value. -/
def Json.asString : Json → String
  | .str s => s
  | .num q => toString q
  | .jbool b => if b then "True" else "False"
  | .null => "None"
  | .obj _ => "object"
  | .arr _ => "array"

/-- Best-effort numeric view of a JSON value, used when the price field is
assigned from an arbitrary JSON value. -/
def Json.asRat : Json → Rat
  | .num q => q
  | .jbool b => if b then 1 else 0
  | _ => 0

/-- Modelled from the spec: the validation failure taxonomy of §7
(`ValidationError`: bad/missing/mistyped input field). -/
inductive ValidationError where
  | missingKey (key : String)
  | badAvailable
  | badCategory
  | malformed
deriving DecidableEq, Repr

/-- Modelled from the spec: the Product entity of §3 — id is server-assigned
and absent before creation; the other five fields are required. -/
structure Product where
  id : Option Nat := none
  name : String := ""
  description : String := ""
  price : Rat := 0
  available : Bool := false
  category : Category := .UNKNOWN
deriving DecidableEq, Repr

/-- Modelled from the spec: `serialize() -> mapping` of §4.1 produces
`{id, name, description, price, available (bool), category (string name)}`
and never fails. -/
def Product.serialize (p : Product) : List (String × Json) :=
  [ ("id", match p.id with | some n => .num n | none => .null),
    ("name", .str p.name),
    ("description", .str p.description),
    ("price", .num p.price),
    ("available", .jbool p.available),
    ("category", .str p.category.name) ]

/-- Modelled from the spec: `deserialize(mapping)` of §4.1 reads `name`,
`description`, `price`, `available`, `category` from the mapping, failing
with `ValidationError` when a required key is missing, the input is not a
mapping, `available` is present but not a boolean, or `category` is present
but not a recognized enumeration member name; `id` is never read from the
input. -/
def Product.deserialize (p : Product) (j : Json) : Except ValidationError Product :=
  match j with
  | .obj fields =>
    match fields.lookup "name" with
    | none => .error (.missingKey "name")
    | some nameV =>
      match fields.lookup "description" with
      | none => .error (.missingKey "description")
      | some descV =>
        match fields.lookup "price" with
        | none => .error (.missingKey "price")
        | some priceV =>
          match fields.lookup "available" with
          | none => .error (.missingKey "available")
          | some availV =>
            match fields.lookup "category" with
            | none => .error (.missingKey "category")
            | some catV =>
              match availV with
              | .jbool b =>
                match catV with
                | .str cname =>
                  match Category.fromName cname with
                  | some c =>
                      .ok { p with
                              name := nameV.asString,
                              description := descV.asString,
                              price := priceV.asRat,
                              available := b,
                              category := c }
                  | none => .error .badCategory
                | _ => .error .badCategory
              | _ => .error .badAvailable
  | _ => .error .malformed

/-- Modelled from the spec: the persisted collection owned by the query
layer (§4.2), with the storage layer's id counter for
insert-with-generated-id. -/
structure DB where
  nextId : Nat := 1
  records : List Product := []
deriving DecidableEq, Repr

/-- Row scan for single-record lookup by unique identifier. -/
def findIn : List Product → Nat → Option Product
  | [], _ => none
  | p :: rest, i => if p.id = some i then some p else findIn rest i

/-- Modelled from the spec: `find(id) -> Product or absent` (§4.2). -/
def DB.find (db : DB) (i : Nat) : Option Product :=
  findIn db.records i

/-- Modelled from the spec: `all() -> sequence of Product`, the entire
collection (§4.2). -/
def DB.all (db : DB) : List Product :=
  db.records

/-- Row scan selecting the records whose name equals the argument. -/
def selectByName : List Product → String → List Product
  | [], _ => []
  | p :: rest, n =>
      if p.name = n then p :: selectByName rest n else selectByName rest n

/-- Modelled from the spec: `find_by_name(name)`, exact match on the name
field (§4.2). -/
def DB.find_by_name (db : DB) (n : String) : List Product :=
  selectByName db.records n

/-- Row scan selecting the records whose category equals the argument. -/
def selectByCategory : List Product → Category → List Product
  | [], _ => []
  | p :: rest, c =>
      if p.category = c then p :: selectByCategory rest c else selectByCategory rest c

/-- Modelled from the spec: `find_by_category(category)`, exact match on the
enumeration member (§4.2). -/
def DB.find_by_category (db : DB) (c : Category) : List Product :=
  selectByCategory db.records c

/-- Row scan selecting the records whose category name equals the argument
string. -/
def selectByCategoryName : List Product → String → List Product
  | [], _ => []
  | p :: rest, s =>
      if p.category.name = s then p :: selectByCategoryName rest s
      else selectByCategoryName rest s

/-- Modelled from the spec: the list handler passes the raw `category`
query string to the category lookup; on the wire a category is its member
name (§4.1), so the lookup matches records by member name. -/
def DB.find_by_category_name (db : DB) (s : String) : List Product :=
  selectByCategoryName db.records s

/-- Row scan selecting the records whose availability equals the argument. -/
def selectByAvailability : List Product → Bool → List Product
  | [], _ => []
  | p :: rest, a =>
      if p.available = a then p :: selectByAvailability rest a
      else selectByAvailability rest a

/-- Modelled from the spec: `find_by_availability(available)`, exact match
on the boolean (§4.2). -/
def DB.find_by_availability (db : DB) (a : Bool) : List Product :=
  selectByAvailability db.records a

/-- Modelled from the spec: `create()` assigns a new unique id from the
storage layer and persists the record (§4.1). -/
def DB.create (db : DB) (p : Product) : Product × DB :=
  let p2 := { p with id := some db.nextId }
  (p2, { nextId := db.nextId + 1, records := db.records ++ [p2] })

/-- Replace the stored record holding the entity's id with the entity. -/
def updateIn : List Product → Product → List Product
  | [], _ => []
  | q :: rest, p => if q.id = p.id then p :: rest else q :: updateIn rest p

/-- Modelled from the spec: `update()` persists an existing id's full
record (§4.1). -/
def DB.update (db : DB) (p : Product) : DB :=
  { db with records := updateIn db.records p }

/-- Modelled from the spec: `delete()` removes the record with the given
id; a no-op when absent (§4.1). -/
def DB.delete (db : DB) (i : Nat) : DB :=
  { db with records := db.records.filter (fun p => p.id ≠ some i) }

/-- An inbound HTTP request as the handlers observe it: the Content-Type
header, the parsed JSON body (`none` when the body is missing or not
parseable JSON), and the three query parameters of the list endpoint. -/
structure Request where
  contentTypeHeader : Option String := none
  body : Option Json := none
  nameParam : Option String := none
  categoryParam : Option String := none
  availableParam : Option String := none

/-- An HTTP response: status code, optional JSON body, optional Location
header. -/
structure Response where
  status : Nat
  body : Option Json := none
  location : Option String := none

/-- Embedded from `check_content_type` in `src/service/routes.py`: the
check passes exactly when the Content-Type header is present and equals the
expected media type by string equality. -/
def check_content_type (req : Request) (ct : String) : Bool :=
  match req.contentTypeHeader with
  | none => false
  | some v => v = ct

/-- Python truthiness of an optional query-parameter string (`if name:`):
true exactly for a present, non-empty string. -/
def paramTruthy : Option String → Bool
  | some s => !s.isEmpty
  | none => false

/-- Embedded from `create_products` in `src/service/routes.py`: 415 on a
wrong Content-Type, 400 on a missing or falsy body, 400 on a validation
failure, else create and answer 201 with a Location header and the
serialized entity. -/
def create_products (req : Request) (db : DB) : Response × DB :=
  if !check_content_type req "application/json" then
    ({ status := 415 }, db)
  else
    match req.body with
    | none => ({ status := 400 }, db)
    | some data =>
      if !data.truthy then ({ status := 400 }, db)
      else
        match Product.deserialize {} data with
        | .error _ => ({ status := 400 }, db)
        | .ok p =>
          let created := db.create p
          ({ status := 201,
             body := some (.obj created.1.serialize),
             location := some ("/api/products/" ++ toString (created.1.id.getD 0)) },
           created.2)

/-- Embedded from `get_products` in `src/service/routes.py`: 404 when the
id is absent, else 200 with the serialized entity. -/
def get_products (pid : Nat) (db : DB) : Response × DB :=
  match db.find pid with
  | none => ({ status := 404 }, db)
  | some p => ({ status := 200, body := some (.obj p.serialize) }, db)

/-- Embedded from `update_products` in `src/service/routes.py`: 415 on a
wrong Content-Type, then 404 when the id is absent, then 400 on a missing
or falsy body or a validation failure; on success the path id is reasserted
onto the entity after deserialization and the record is persisted. -/
def update_products (req : Request) (pid : Nat) (db : DB) : Response × DB :=
  if !check_content_type req "application/json" then
    ({ status := 415 }, db)
  else
    match db.find pid with
    | none => ({ status := 404 }, db)
    | some found =>
      match req.body with
      | none => ({ status := 400 }, db)
      | some data =>
        if !data.truthy then ({ status := 400 }, db)
        else
          match found.deserialize data with
          | .error _ => ({ status := 400 }, db)
          | .ok p =>
            let p2 := { p with id := some pid }
            ({ status := 200, body := some (.obj p2.serialize) }, db.update p2)

/-- Embedded from `delete_products` in `src/service/routes.py`: delete the
record when present, and answer 204 either way. -/
def delete_products (pid : Nat) (db : DB) : Response × DB :=
  match db.find pid with
  | some _ => ({ status := 204 }, db.delete pid)
  | none => ({ status := 204 }, db)

/-- Embedded from `list_products` in `src/service/routes.py`: the
`available` query string maps to true exactly when its lowercased value is
one of "true", "1", "yes". -/
def parseAvailable (s : String) : Bool :=
  decide (s.toLower = "true" ∨ s.toLower = "1" ∨ s.toLower = "yes")

/-- Embedded from `list_products` in `src/service/routes.py`: filter
selection by Python truthiness of `name`, then of `category`, then
presence of `available`, else the whole collection; always 200 with the
serialized array. -/
def list_products (req : Request) (db : DB) : Response × DB :=
  let products :=
    if paramTruthy req.nameParam then
      db.find_by_name (req.nameParam.getD "")
    else if paramTruthy req.categoryParam then
      db.find_by_category_name (req.categoryParam.getD "")
    else
      match req.availableParam with
      | some s => db.find_by_availability (parseAvailable s)
      | none => db.all
  ({ status := 200, body := some (.arr (products.map (fun p => .obj p.serialize))) }, db)

/-- Whether an `Except` value is a success. -/
def exceptIsOk : Except ValidationError Product → Bool
  | .ok _ => true
  | .error _ => false

/-- The bad-input conditions for a field mapping: a required key missing,
`available` present but not a boolean, `category` present but not a
recognized enumeration member name, or the value not a mapping at all. -/
def Json.badMapping : Json → Bool
  | .obj fields =>
      (["name", "description", "price", "available", "category"].any
        (fun k => (fields.lookup k).isNone))
      || (match fields.lookup "available" with
          | some (.jbool _) => false
          | some _ => true
          | none => false)
      || (match fields.lookup "category" with
          | some (.str s) => (Category.fromName s).isNone
          | some _ => true
          | none => false)
  | _ => true

/-- Drop every `id` key from a mapping; other values are untouched. -/
def Json.removeId : Json → Json
  | .obj fields => .obj (fields.filter (fun kv => kv.1 ≠ "id"))
  | j => j

/-- A concrete valid product field mapping (the §8 scenario body). -/
def jsonFedora : Json :=
  .obj [ ("name", .str "Fedora"),
         ("description", .str "A red hat"),
         ("price", .num 12),
         ("available", .jbool true),
         ("category", .str "CLOTHS") ]

/-- The entity built from `jsonFedora`. -/
def prodFedora : Product :=
  { name := "Fedora", description := "A red hat", price := 12,
    available := true, category := .CLOTHS }

/-- A well-formed create request carrying `jsonFedora`. -/
def reqCreateFedora : Request :=
  { contentTypeHeader := some "application/json", body := some jsonFedora }

/-- A concrete stored record with id 1. -/
def prodHat : Product :=
  { id := some 1, name := "Hat", description := "d", price := 1,
    available := true, category := .FOOD }

/-- A collection holding exactly `prodHat`. -/
def dbOne : DB := { nextId := 2, records := [prodHat] }

/-- A list request carrying an empty `name` parameter together with a
`category` parameter. -/
def reqEmptyName : Request :=
  { nameParam := some "", categoryParam := some "FOOD" }

/-- The `jsonFedora` mapping with a client-supplied `id` key added. -/
def jsonFedoraWithId : Json :=
  .obj [ ("id", .num 99),
         ("name", .str "Fedora"),
         ("description", .str "A red hat"),
         ("price", .num 12),
         ("available", .jbool true),
         ("category", .str "CLOTHS") ]

/-- A well-formed update request whose body carries a client `id`. -/
def reqUpdateFedora : Request :=
  { contentTypeHeader := some "application/json", body := some jsonFedoraWithId }

/-- A request with a non-JSON Content-Type header. -/
def reqBadCT : Request := { contentTypeHeader := some "text/plain" }

theorem findIn_id {l : List Product} {i : Nat} {p : Product}
    (h : findIn l i = some p) : p.id = some i := by
  induction l with
  | nil => simp [findIn] at h
  | cons q rest ih =>
    by_cases hq : q.id = some i
    · simp [findIn, hq] at h
      rw [← h, hq]
    · simp [findIn, hq] at h
      exact ih h

theorem selectByName_eq_filter (l : List Product) (n : String) :
    selectByName l n = l.filter (fun p => decide (p.name = n)) := by
  induction l with
  | nil => rfl
  | cons q rest ih =>
    by_cases hq : q.name = n
    · simp [selectByName, List.filter, hq, ih]
    · simp [selectByName, List.filter, hq, ih]

theorem selectByCategory_eq_filter (l : List Product) (c : Category) :
    selectByCategory l c = l.filter (fun p => decide (p.category = c)) := by
  induction l with
  | nil => rfl
  | cons q rest ih =>
    by_cases hq : q.category = c
    · simp [selectByCategory, List.filter, hq, ih]
    · simp [selectByCategory, List.filter, hq, ih]

theorem selectByAvailability_eq_filter (l : List Product) (a : Bool) :
    selectByAvailability l a = l.filter (fun p => decide (p.available = a)) := by
  induction l with
  | nil => rfl
  | cons q rest ih =>
    by_cases hq : q.available = a
    · simp [selectByAvailability, List.filter, hq, ih]
    · simp [selectByAvailability, List.filter, hq, ih]

theorem findIn_delete (l : List Product) (i : Nat) :
    findIn (l.filter (fun p => p.id ≠ some i)) i = none := by
  induction l with
  | nil => rfl
  | cons q rest ih =>
    simp only [ne_eq, decide_not] at ih ⊢
    by_cases hq : q.id = some i
    · simp [List.filter_cons, hq, ih]
    · simp [List.filter_cons, hq, findIn, ih]

theorem updateIn_map_id (l : List Product) (p : Product) :
    (updateIn l p).map Product.id = l.map Product.id := by
  induction l with
  | nil => rfl
  | cons q rest ih =>
    by_cases hq : q.id = p.id
    · simp [updateIn, hq]
    · simp [updateIn, hq, ih]

theorem findIn_updateIn {l : List Product} {i : Nat} {q : Product}
    (hfound : (findIn l i).isSome) (hq : q.id = some i) :
    findIn (updateIn l q) i = some q := by
  induction l with
  | nil => simp [findIn] at hfound
  | cons r rest ih =>
    by_cases hr : r.id = some i
    · have : r.id = q.id := by rw [hr, hq]
      simp [updateIn, this, findIn, hq]
    · have hrq : ¬ r.id = q.id := by rw [hq]; exact hr
      simp [findIn, hr] at hfound
      simp [updateIn, hrq, findIn, hr, ih hfound]

theorem lookup_filter_ne (fields : List (String × Json)) (k : String)
    (hk : k ≠ "id") :
    (fields.filter (fun kv => kv.1 ≠ "id")).lookup k = fields.lookup k := by
  induction fields with
  | nil => rfl
  | cons kv rest ih =>
    simp only [ne_eq, decide_not] at ih ⊢
    by_cases h1 : kv.1 = "id"
    · have hne : (k == kv.1) = false := by
        simp [h1]
        exact hk
      have hne2 : (k == "id") = false := by simp [hk]
      simp [List.filter_cons, h1, List.lookup, hne, hne2, ih]
    · by_cases h2 : k = kv.1
      · simp [List.filter_cons, h1, List.lookup, h2]
      · have hne : (k == kv.1) = false := by simp [h2]
        simp [List.filter_cons, h1, List.lookup, hne, ih]

theorem deserialize_isOk (p : Product) (j : Json) :
    exceptIsOk (p.deserialize j) = !j.badMapping := by
  cases j with
  | obj fields =>
    simp only [Product.deserialize, Json.badMapping]
    cases hn : fields.lookup "name" with
    | none => simp [exceptIsOk, hn]
    | some nameV =>
      cases hd : fields.lookup "description" with
      | none => simp [exceptIsOk, hn, hd]
      | some descV =>
        cases hp : fields.lookup "price" with
        | none => simp [exceptIsOk, hn, hd, hp]
        | some priceV =>
          cases ha : fields.lookup "available" with
          | none => simp [exceptIsOk, hn, hd, hp, ha]
          | some availV =>
            cases hc : fields.lookup "category" with
            | none => simp [exceptIsOk, hn, hd, hp, ha, hc]
            | some catV =>
              cases availV with
              | jbool b =>
                cases catV with
                | str s =>
                  cases hf : Category.fromName s with
                  | none => simp [exceptIsOk, hn, hd, hp, ha, hc, hf]
                  | some c => simp [exceptIsOk, hn, hd, hp, ha, hc, hf]
                | obj o => simp [exceptIsOk, hn, hd, hp, ha, hc]
                | num q => simp [exceptIsOk, hn, hd, hp, ha, hc]
                | jbool b2 => simp [exceptIsOk, hn, hd, hp, ha, hc]
                | null => simp [exceptIsOk, hn, hd, hp, ha, hc]
                | arr es => simp [exceptIsOk, hn, hd, hp, ha, hc]
              | obj o => simp [exceptIsOk, hn, hd, hp, ha, hc]
              | str s => simp [exceptIsOk, hn, hd, hp, ha, hc]
              | num q => simp [exceptIsOk, hn, hd, hp, ha, hc]
              | null => simp [exceptIsOk, hn, hd, hp, ha, hc]
              | arr es => simp [exceptIsOk, hn, hd, hp, ha, hc]
  | str s => rfl
  | num q => rfl
  | jbool b => rfl
  | null => rfl
  | arr es => rfl

theorem deserialize_ok_truthy {p q : Product} {j : Json}
    (h : p.deserialize j = .ok q) : j.truthy = true := by
  cases j with
  | obj fields =>
    cases fields with
    | nil => simp [Product.deserialize, List.lookup] at h
    | cons kv rest => simp [Json.truthy]
  | str s => simp [Product.deserialize] at h
  | num q => simp [Product.deserialize] at h
  | jbool b => simp [Product.deserialize] at h
  | null => simp [Product.deserialize] at h
  | arr es => simp [Product.deserialize] at h

theorem deserialize_removeId (p : Product) (j : Json) :
    p.deserialize j.removeId = p.deserialize j := by
  cases j with
  | obj fields =>
    simp only [Json.removeId, Product.deserialize]
    rw [lookup_filter_ne fields "name" (by decide),
        lookup_filter_ne fields "description" (by decide),
        lookup_filter_ne fields "price" (by decide),
        lookup_filter_ne fields "available" (by decide),
        lookup_filter_ne fields "category" (by decide)]
  | str s => rfl
  | num q => rfl
  | jbool b => rfl
  | null => rfl
  | arr es => rfl

theorem fromName_name (c : Category) : Category.fromName c.name = some c := by
  cases c <;> rfl

theorem selectByCategoryName_eq_filter (l : List Product) (s : String) :
    selectByCategoryName l s = l.filter (fun p => decide (p.category.name = s)) := by
  induction l with
  | nil => rfl
  | cons q rest ih =>
    by_cases hq : q.category.name = s
    · simp [selectByCategoryName, List.filter, hq, ih]
    · simp [selectByCategoryName, List.filter, hq, ih]

theorem deserialize_serialize (base p : Product) :
    Product.deserialize base (.obj p.serialize) =
      .ok { base with name := p.name, description := p.description,
                      price := p.price, available := p.available,
                      category := p.category } := by
  obtain ⟨i0, n0, d0, pr0, a0, c0⟩ := p
  cases c0 <;> rfl

/-- C3: `deserialize` fails with `ValidationError` exactly when the input
is bad — `available` present but not a boolean, `category` present but not
a recognized enumeration member name, a required key missing, or the input
not a mapping — and removing any `id` key from the input never changes the
outcome, so it never fails because `id` is missing. -/
theorem deserialize_fails_iff_bad (p : Product) (j : Json) :
    exceptIsOk (p.deserialize j) = !j.badMapping
      ∧ p.deserialize j.removeId = p.deserialize j :=
  ⟨deserialize_isOk p j, deserialize_removeId p j⟩

/-- C4: for every valid field mapping, building an entity from it and then
deserializing its serialization yields the very same entity (serialize
followed by deserialize is a round-trip). -/
theorem serialize_roundtrip (j : Json) (base p : Product)
    (h : Product.deserialize base j = .ok p) :
    Product.deserialize base (.obj p.serialize) = .ok p := by
  cases j with
  | obj fields =>
    simp only [Product.deserialize] at h
    cases hn : fields.lookup "name" with
    | none => simp [hn] at h
    | some nameV =>
      simp only [hn] at h
      cases hd : fields.lookup "description" with
      | none => simp [hd] at h
      | some descV =>
        simp only [hd] at h
        cases hp : fields.lookup "price" with
        | none => simp [hp] at h
        | some priceV =>
          simp only [hp] at h
          cases ha : fields.lookup "available" with
          | none => simp [ha] at h
          | some availV =>
            simp only [ha] at h
            cases hc : fields.lookup "category" with
            | none => simp [hc] at h
            | some catV =>
              simp only [hc] at h
              cases availV with
              | jbool b =>
                cases catV with
                | str s =>
                  cases hf : Category.fromName s with
                  | none => simp [hf] at h
                  | some c =>
                    simp only [hf, Except.ok.injEq] at h
                    subst h
                    exact deserialize_serialize base _
                | obj o => simp at h
                | num q => simp at h
                | jbool b2 => simp at h
                | null => simp at h
                | arr es => simp at h
              | obj o => simp at h
              | str s => simp at h
              | num q => simp at h
              | null => simp at h
              | arr es => simp at h
  | str s => simp [Product.deserialize] at h
  | num q => simp [Product.deserialize] at h
  | jbool b => simp [Product.deserialize] at h
  | null => simp [Product.deserialize] at h
  | arr es => simp [Product.deserialize] at h

/-- Witness for C4 at the concrete §8 mapping. -/
theorem serialize_roundtrip_witness :
    Product.deserialize {} jsonFedora = .ok prodFedora
      ∧ Product.deserialize {} (.obj prodFedora.serialize) = .ok prodFedora :=
  ⟨rfl, serialize_roundtrip jsonFedora {} prodFedora rfl⟩

/-- C5: `find_by_name`, `find_by_category` and `find_by_availability`
return exactly the members of `all()` whose respective field equals the
argument. -/
theorem find_by_exactness (db : DB) (n : String) (c : Category) (a : Bool) :
    db.find_by_name n = db.all.filter (fun p => decide (p.name = n))
      ∧ db.find_by_category c = db.all.filter (fun p => decide (p.category = c))
      ∧ db.find_by_availability a = db.all.filter (fun p => decide (p.available = a)) :=
  ⟨selectByName_eq_filter db.records n,
   selectByCategory_eq_filter db.records c,
   selectByAvailability_eq_filter db.records a⟩

/-- C1: a POST with Content-Type `application/json` and a valid product
field mapping creates the product and answers 201 with a Location header
for the created product and the serialized entity whose id is the
server-assigned counter value — the response and the new record are fully
determined by the collection, never by a client-supplied id. -/
theorem create_valid_created (req : Request) (db : DB) (j : Json) (p : Product)
    (hct : req.contentTypeHeader = some "application/json")
    (hb : req.body = some j)
    (hds : Product.deserialize {} j = .ok p) :
    create_products req db =
      ({ status := 201,
         body := some (.obj ({ p with id := some db.nextId } : Product).serialize),
         location := some ("/api/products/" ++ toString db.nextId) },
       { nextId := db.nextId + 1,
         records := db.records ++ [{ p with id := some db.nextId }] })
      ∧ ({ p with id := some db.nextId } : Product).serialize.lookup "id"
          = some (.num (db.nextId : Rat)) := by
  have htr : j.truthy = true := deserialize_ok_truthy hds
  constructor
  · simp [create_products, check_content_type, hct, hb, htr, hds, DB.create]
  · rfl

/-- Witness for C1 at the concrete §8 create scenario. -/
theorem create_valid_created_witness :
    create_products reqCreateFedora {} =
      ({ status := 201,
         body := some (.obj ({ prodFedora with id := some 1 } : Product).serialize),
         location := some ("/api/products/" ++ toString (1 : Nat)) },
       { nextId := 2, records := [{ prodFedora with id := some 1 }] }) :=
  (create_valid_created reqCreateFedora {} jsonFedora prodFedora rfl rfl rfl).1

/-- Counterexample to C2 as stated: the `name` query parameter is present
(the empty string) yet the handler does not answer with
`find_by_name("")` — it falls through to the category filter and returns
the FOOD record, while `find_by_name("")` is empty. -/
theorem list_name_present_not_used :
    (list_products reqEmptyName dbOne).1.body
        = some (.arr [.obj prodHat.serialize])
      ∧ dbOne.find_by_name "" = []
      ∧ Json.arr [.obj prodHat.serialize] ≠ Json.arr [] := by
  refine ⟨rfl, rfl, ?_⟩
  simp

/-- C2 (amended): exactly one filter is applied, by exclusive first match
on `name` being present and non-empty, else `category` present and
non-empty, else `available` present (even empty), else the unfiltered
collection; the selected filter is an exact-match subset of `all()` and
the other parameters are ignored. -/
theorem list_filter_precedence (req : Request) (db : DB) :
    list_products req db =
      ({ status := 200,
         body := some (.arr
           ((if paramTruthy req.nameParam then
               db.all.filter (fun p => decide (p.name = req.nameParam.getD ""))
             else if paramTruthy req.categoryParam then
               db.all.filter
                 (fun p => decide (p.category.name = req.categoryParam.getD ""))
             else
               match req.availableParam with
               | some s => db.all.filter (fun p => decide (p.available = parseAvailable s))
               | none => db.all).map (fun p => .obj p.serialize))) },
       db) := by
  by_cases h1 : paramTruthy req.nameParam
  · simp [list_products, h1, DB.find_by_name, DB.all, selectByName_eq_filter]
  · by_cases h2 : paramTruthy req.categoryParam
    · simp [list_products, h1, h2, DB.find_by_category_name, DB.all,
        selectByCategoryName_eq_filter]
    · cases ha : req.availableParam with
      | some s =>
        simp [list_products, h1, h2, ha, DB.find_by_availability, DB.all,
          selectByAvailability_eq_filter]
      | none => simp [list_products, h1, h2, ha, DB.all]

/-- C6: a PUT on an existing id never changes any stored id, keeps a
record at the path id whose id is the path id, and on success answers
with a serialized entity whose id field is the path id — regardless of
any id value in the request body. -/
theorem update_preserves_path_id (req : Request) (pid : Nat) (db : DB)
    (p : Product) (hfind : db.find pid = some p) :
    ((update_products req pid db).2.records.map Product.id
        = db.records.map Product.id)
      ∧ (∃ q, (update_products req pid db).2.find pid = some q ∧ q.id = some pid)
      ∧ ((update_products req pid db).1.status = 200 →
          ∃ fields, (update_products req pid db).1.body = some (.obj fields)
            ∧ fields.lookup "id" = some (.num (pid : Rat))) := by
  have hpid : p.id = some pid := findIn_id hfind
  by_cases hct : check_content_type req "application/json"
  · cases hb : req.body with
    | none =>
      refine ⟨?_, ⟨p, ?_, hpid⟩, ?_⟩ <;>
        simp [update_products, hct, hfind, hb]
    | some data =>
      by_cases htr : data.truthy
      · cases hds : p.deserialize data with
        | error e =>
          refine ⟨?_, ⟨p, ?_, hpid⟩, ?_⟩ <;>
            simp [update_products, hct, hfind, hb, htr, hds]
        | ok p2 =>
          have hsome : (findIn db.records pid).isSome := by
            simp [DB.find] at hfind
            simp [hfind]
          refine ⟨?_, ⟨{ p2 with id := some pid }, ?_, rfl⟩, ?_⟩
          · simp [update_products, hct, hfind, hb, htr, hds, DB.update,
              updateIn_map_id]
          · simp only [update_products, hct, hfind, hb, htr, hds]
            simp [DB.find, DB.update,
              findIn_updateIn hsome (show ({ p2 with id := some pid } : Product).id = some pid from rfl)]
          · intro hst
            refine ⟨({ p2 with id := some pid } : Product).serialize, ?_, rfl⟩
            simp [update_products, hct, hfind, hb, htr, hds]
      · refine ⟨?_, ⟨p, ?_, hpid⟩, ?_⟩ <;>
          simp [update_products, hct, hfind, hb, htr]
  · refine ⟨?_, ⟨p, ?_, hpid⟩, ?_⟩ <;>
      simp [update_products, hct, hfind]

/-- Witness for C6: updating record 1 with a body claiming id 99 keeps the
stored id 1. -/
theorem update_preserves_path_id_witness :
    dbOne.find 1 = some prodHat
      ∧ ∃ q, (update_products reqUpdateFedora 1 dbOne).2.find 1 = some q
          ∧ q.id = some 1 :=
  ⟨rfl, (update_preserves_path_id reqUpdateFedora 1 dbOne prodHat rfl).2.1⟩

/-- C7: DELETE always answers 204 whether or not the id exists; afterward
the id is absent, and a second delete of the same id answers 204 again and
leaves the collection unchanged. -/
theorem delete_idempotent (pid : Nat) (db : DB) :
    (delete_products pid db).1 = { status := 204 }
      ∧ (delete_products pid db).2.find pid = none
      ∧ delete_products pid (delete_products pid db).2
          = ({ status := 204 }, (delete_products pid db).2) := by
  cases hf : db.find pid with
  | none =>
    refine ⟨?_, ?_, ?_⟩ <;> simp [delete_products, hf]
  | some p =>
    have hgone : (db.delete pid).find pid = none := by
      have := findIn_delete db.records pid
      simp only [ne_eq, decide_not] at this
      simp only [DB.find, DB.delete, ne_eq, decide_not]
      exact this
    refine ⟨?_, ?_, ?_⟩
    · simp [delete_products, hf]
    · simp [delete_products, hf, hgone]
    · simp [delete_products, hf, hgone]

/-- Counterexample to C8 as stated: with a non-JSON Content-Type, a PUT on
an absent id answers 415, not 404. -/
theorem put_absent_wrong_media :
    ({} : DB).find 1 = none
      ∧ (update_products reqBadCT 1 {}).1.status = 415
      ∧ (415 : Nat) ≠ 404 :=
  ⟨rfl, rfl, by decide⟩

/-- C8 (amended): for an id with no record, GET answers 404 leaving the
collection unchanged, and a PUT whose Content-Type is `application/json`
answers 404 leaving the collection unchanged, with the same outcome for
every possible body — the body is never read. -/
theorem absent_id_404 (pid : Nat) (db : DB) (req : Request)
    (habs : db.find pid = none) :
    get_products pid db = ({ status := 404 }, db)
      ∧ (req.contentTypeHeader = some "application/json" →
          ∀ b, update_products { req with body := b } pid db
            = ({ status := 404 }, db)) := by
  constructor
  · simp [get_products, habs]
  · intro hct b
    simp [update_products, check_content_type, hct, habs]

/-- Witness for C8 at an empty collection. -/
theorem absent_id_404_witness :
    ({} : DB).find 1 = none
      ∧ update_products
          { contentTypeHeader := some "application/json", body := some Json.null } 1 {}
          = ({ status := 404 }, {}) :=
  ⟨rfl,
   (absent_id_404 1 {} { contentTypeHeader := some "application/json" } rfl).2
     rfl (some Json.null)⟩

/-- C9: the `available` query string is parsed case-insensitively — it
maps to true exactly when its lowercased value is one of "true", "1",
"yes" — and the list handler feeds the parsed value to the availability
filter. -/
theorem available_parsing (s : String) (db : DB) :
    (parseAvailable s = true ↔ s.toLower ∈ (["true", "1", "yes"] : List String))
      ∧ (list_products { availableParam := some s } db).1.body
          = some (.arr ((db.find_by_availability (parseAvailable s)).map
              (fun p => .obj p.serialize))) := by
  constructor
  · simp [parseAvailable]
  · rfl

/-- C10: POST and PUT compare the Content-Type header for exact string
equality with `application/json`; a missing header or any other value —
including `application/json; charset=utf-8` — is rejected with 415 with
the collection untouched and the body never read. -/
theorem wrong_content_type_415 (req : Request) (pid : Nat) (db : DB)
    (h : req.contentTypeHeader ≠ some "application/json") :
    create_products req db = ({ status := 415 }, db)
      ∧ update_products req pid db = ({ status := 415 }, db) := by
  have hcc : check_content_type req "application/json" = false := by
    unfold check_content_type
    cases hh : req.contentTypeHeader with
    | none => rfl
    | some v =>
      have hv : v ≠ "application/json" := by
        intro e
        exact h (by rw [hh, e])
      simp [hv]
  constructor
  · simp [create_products, hcc]
  · simp [update_products, hcc]

/-- Witness for C10 at the charset-qualified media type. -/
theorem wrong_content_type_415_witness :
    some "application/json; charset=utf-8" ≠ some "application/json"
      ∧ create_products
          { contentTypeHeader := some "application/json; charset=utf-8" } {}
          = ({ status := 415 }, {}) :=
  ⟨by decide,
   (wrong_content_type_415
      { contentTypeHeader := some "application/json; charset=utf-8" } 1 {}
      (by decide)).1⟩

end ProductService
